import Mathlib

/-!
Shallow embedding of `src/mcp_file_server/main.py` (MCP file server core):
path validation, binary classification, and the three operations
`read_file`, `write_file`, `list_directory`, together with proofs of the
spec claims about them.

The filesystem is modelled as a finite association list from absolute
paths (component lists) to nodes; OS-level fault injection (permission
and I/O errors at the points where the Python code can observe them) and
path resolution live in an `Env` record that operations never mutate.
File contents are byte lists; Python's UTF-8 codec (`str.encode`,
`bytes.decode`) is embedded as `utf8Encode` / `utf8Decode`.
-/

namespace MCPFS

/-- Bytes of the UTF-8 encoding of one Unicode scalar value, as CPython's
codec produces them. -/
def utf8EncodeChar (c : Char) : List Nat :=
  if c.toNat < 0x80 then [c.toNat]
  else if c.toNat < 0x800 then [0xC0 + c.toNat / 64, 0x80 + c.toNat % 64]
  else if c.toNat < 0x10000 then
    [0xE0 + c.toNat / 4096, 0x80 + c.toNat / 64 % 64, 0x80 + c.toNat % 64]
  else
    [0xF0 + c.toNat / 262144, 0x80 + c.toNat / 4096 % 64, 0x80 + c.toNat / 64 % 64,
     0x80 + c.toNat % 64]

/-- UTF-8 encoding of a whole string (Python `s.encode("utf-8")`). -/
def utf8Encode (s : String) : List Nat :=
  (s.data.map utf8EncodeChar).flatten

/-- Test for a UTF-8 continuation byte `0x80..0xBF`. -/
def isCont (b : Nat) : Bool :=
  decide (0x80 ≤ b) && decide (b < 0xC0)

/-- Decode one UTF-8 scalar value from the front of a byte list,
returning the character and the remaining bytes; rejects overlong forms,
surrogates, out-of-range values and truncated sequences. -/
def decodeOne : List Nat → Option (Char × List Nat)
  | [] => none
  | b1 :: t1 =>
    if b1 < 0x80 then some (Char.ofNat b1, t1)
    else if b1 < 0xC2 then none
    else if b1 < 0xE0 then
      match t1 with
      | b2 :: t2 =>
        if isCont b2 then some (Char.ofNat ((b1 - 0xC0) * 64 + (b2 - 0x80)), t2)
        else none
      | [] => none
    else if b1 < 0xF0 then
      match t1 with
      | b2 :: b3 :: t3 =>
        if isCont b2 && isCont b3 then
          if 0x800 ≤ (b1 - 0xE0) * 4096 + (b2 - 0x80) * 64 + (b3 - 0x80) ∧
             ((b1 - 0xE0) * 4096 + (b2 - 0x80) * 64 + (b3 - 0x80) < 0xD800 ∨
              0xDFFF < (b1 - 0xE0) * 4096 + (b2 - 0x80) * 64 + (b3 - 0x80)) then
            some (Char.ofNat ((b1 - 0xE0) * 4096 + (b2 - 0x80) * 64 + (b3 - 0x80)), t3)
          else none
        else none
      | _ => none
    else if b1 < 0xF5 then
      match t1 with
      | b2 :: b3 :: b4 :: t4 =>
        if isCont b2 && isCont b3 && isCont b4 then
          if 0x10000 ≤ (b1 - 0xF0) * 262144 + (b2 - 0x80) * 4096 + (b3 - 0x80) * 64 + (b4 - 0x80) ∧
             (b1 - 0xF0) * 262144 + (b2 - 0x80) * 4096 + (b3 - 0x80) * 64 + (b4 - 0x80) < 0x110000 then
            some
              (Char.ofNat
                ((b1 - 0xF0) * 262144 + (b2 - 0x80) * 4096 + (b3 - 0x80) * 64 + (b4 - 0x80)), t4)
          else none
        else none
      | _ => none
    else none

/-- Fuel-indexed UTF-8 decoding loop; each step consumes at least one
byte, so fuel equal to the list length is always enough. -/
def utf8DecodeF : Nat → List Nat → Option (List Char)
  | _, [] => some []
  | 0, _ :: _ => none
  | f + 1, b1 :: t1 =>
    match decodeOne (b1 :: t1) with
    | some (c, rest) => (utf8DecodeF f rest).map (fun cs => c :: cs)
    | none => none

/-- Strict UTF-8 decoding of a byte list (Python `bytes.decode("utf-8")`):
returns `none` exactly when CPython raises `UnicodeDecodeError`. -/
def utf8Decode (l : List Nat) : Option (List Char) :=
  utf8DecodeF l.length l

/-- CPython universal-newline translation applied by text-mode reads
(`open(..., newline=None)`, hence `Path.read_text`): every `\r\n` pair
and every lone `\r` becomes `\n`; applied to the decoded characters. -/
def univNewlines : List Char → List Char
  | [] => []
  | c :: rest =>
    if c = '\r' then
      match rest with
      | [] => ['\n']
      | c2 :: rest2 =>
        if c2 = '\n' then '\n' :: univNewlines rest2
        else '\n' :: univNewlines (c2 :: rest2)
    else c :: univNewlines rest

/-- Filesystem node: regular file with byte content, directory, or a
non-regular non-directory node (socket, FIFO, device). -/
inductive FsNode
  | file (content : List Nat)
  | dir
  | other
  deriving DecidableEq, Repr

/-- An OS-level failure observable by the Python code: `PermissionError`
or another `OSError`. -/
inductive OErr
  | perm
  | os
  deriving DecidableEq, Repr

/-- A filesystem: finite association list from absolute paths (component
lists) to nodes.  The list order is the `iterdir` enumeration order. -/
abbrev Fs := List (List String × FsNode)

/-- Environment fixed during one operation call: `Path.resolve`
normalization of raw strings, stat timestamps, and OS fault injection at
each point the Python code can observe a raised `OSError`. -/
structure Env where
  resolve : String → Option (List String)
  mtime : List String → Nat
  openErr : List String → Option OErr
  statErr : List String → Bool
  iterErr : List String → Option OErr
  mkdirErr : List String → Option OErr
  writeErr : List String → Option OErr

/-- Error taxonomy of the spec; each constructor corresponds to one
`raise ValueError(...)` site in `main.py` and carries its message. -/
inductive Err
  | invalidPath (msg : String)
  | notFound (msg : String)
  | notAFile (msg : String)
  | notADirectory (msg : String)
  | isADirectory (msg : String)
  | binaryFile (msg : String)
  | encodingError (msg : String)
  | permissionDenied (msg : String)
  | ioError (msg : String)
  | unexpected (msg : String)
  deriving DecidableEq, Repr

/-- Association-list lookup of a path in a filesystem. -/
def lookupNode : Fs → List String → Option FsNode
  | [], _ => none
  | e :: rest, p => if e.1 = p then some e.2 else lookupNode rest p

/-- Python `path.exists()`. -/
def pathExists (fs : Fs) (p : List String) : Bool :=
  (lookupNode fs p).isSome

/-- Python `path.is_file()`: true exactly for regular files. -/
def isFile (fs : Fs) (p : List String) : Bool :=
  match lookupNode fs p with
  | some (FsNode.file _) => true
  | _ => false

/-- Python `path.is_dir()`: true exactly for directories. -/
def isDir (fs : Fs) (p : List String) : Bool :=
  match lookupNode fs p with
  | some FsNode.dir => true
  | _ => false

/-- POSIX rendering `str(path)` of a resolved absolute path. -/
def renderPath (p : List String) : String :=
  "/" ++ String.intercalate "/" p

/-- CPython rendering of `str(e)` for a `PermissionError` raised when
opening `p`. -/
def osPermissionMessage (p : List String) : String :=
  "[Errno 13] Permission denied: " ++ renderPath p

/-- CPython rendering of `str(e)` for a generic `OSError` at `p`. -/
def osErrorMessage (p : List String) : String :=
  "[Errno 5] Input/output error: " ++ renderPath p

/-- Characters Python `str.strip()` removes (ASCII whitespace). -/
def pyIsSpace (c : Char) : Bool :=
  c == ' ' || c == '\t' || c == '\n' || c == '\r' || c == '\x0b' || c == '\x0c'

/-- Python `not file_path or not file_path.strip()`: true iff the string
is empty or consists only of whitespace. -/
def pyStripIsEmpty (s : String) : Bool :=
  s.data.all pyIsSpace

/-- Embedding of `validate_and_sanitize_path` (main.py lines 34-66):
empty/whitespace check, NUL check (both before any path API), then
`Path(file_path).resolve()`; a resolution failure is wrapped as an
invalid-path error. -/
def validate_and_sanitize_path (env : Env) (file_path : String) : Except Err (List String) :=
  if pyStripIsEmpty file_path then
    Except.error (Err.invalidPath "File path cannot be empty")
  else if file_path.data.contains '\x00' then
    Except.error (Err.invalidPath "Invalid characters in file path")
  else
    match env.resolve file_path with
    | some p => Except.ok p
    | none => Except.error (Err.invalidPath "Invalid file path: resolution failed")

/-- Embedding of `is_binary_file` (main.py lines 69-90): open the file
and scan the first 8192 bytes for NUL.  A `PermissionError` on open is
re-raised (modelled as `Except.error ()`); any other failure to read
makes the function return `true`. -/
def is_binary_file (env : Env) (fs : Fs) (p : List String) : Except Unit Bool :=
  match env.openErr p with
  | some OErr.perm => Except.error ()
  | some OErr.os => Except.ok true
  | none =>
    match lookupNode fs p with
    | some (FsNode.file content) => Except.ok ((content.take 8192).contains 0)
    | _ => Except.ok true

/-- Decoding stage of `read_file` (main.py line 130 and its
`UnicodeDecodeError` handler): decode the file bytes as UTF-8 and apply
the universal-newline translation `Path.read_text`'s text mode
performs on the decoded characters. -/
def decode_step (file_path : String) (content : List Nat) : Except Err String :=
  match utf8Decode content with
  | some cs => Except.ok (String.mk (univNewlines cs))
  | none =>
    Except.error (Err.encodingError
      ("Cannot decode file as UTF-8: " ++ file_path ++ ". File may be binary or use unsupported encoding."))

/-- Inner try of `read_file` (main.py lines 129-142): `path.read_text`
with its `PermissionError` / `OSError` handlers. -/
def read_text_step (env : Env) (fs : Fs) (file_path : String) (path : List String) :
    Except Err String :=
  match env.openErr path with
  | some OErr.perm =>
    Except.error (Err.permissionDenied ("Permission denied reading file: " ++ file_path))
  | some OErr.os =>
    Except.error (Err.ioError ("Error reading file: " ++ osErrorMessage path))
  | none =>
    match lookupNode fs path with
    | some (FsNode.file content) => decode_step file_path content
    | _ => Except.error (Err.ioError ("Error reading file: " ++ osErrorMessage path))

/-- Body of `read_file` after path validation (main.py lines 113-142).
Note the probe `is_binary_file` is called outside the inner try, so a
`PermissionError` it re-raises reaches the outer catch-all (lines
147-149) and is wrapped as the "Unexpected error reading file" message. -/
def read_file_checked (env : Env) (fs : Fs) (file_path : String) (path : List String) :
    Except Err String :=
  if !(pathExists fs path) then
    Except.error (Err.notFound ("File not found: " ++ file_path))
  else if !(isFile fs path) then
    Except.error (Err.notAFile ("Path is not a file: " ++ file_path))
  else
    match is_binary_file env fs path with
    | Except.error () =>
      Except.error (Err.unexpected ("Unexpected error reading file: " ++ osPermissionMessage path))
    | Except.ok true =>
      Except.error (Err.binaryFile ("Cannot read binary file: " ++ file_path ++ ". Only text files are supported."))
    | Except.ok false => read_text_step env fs file_path path

/-- Embedding of `read_file` (main.py lines 93-149). -/
def read_file (env : Env) (fs : Fs) (file_path : String) : Except Err String :=
  match validate_and_sanitize_path env file_path with
  | Except.error e => Except.error e
  | Except.ok path => read_file_checked env fs file_path path

/-- Python `path.parent` on a resolved absolute path. -/
def parentPath (p : List String) : List String :=
  p.dropLast

/-- The proper ancestors `path.parent.mkdir(parents=True)` would create,
shortest first: all non-empty take-prefixes of `p`. -/
def ancestorsOf (p : List String) : List (List String) :=
  (List.range p.length).map (fun i => p.take (i + 1))

/-- One `mkdir(exist_ok=True)` step: create a directory at `q` unless
something already exists there. -/
def addDir (fs : Fs) (q : List String) : Fs :=
  match lookupNode fs q with
  | some _ => fs
  | none => fs ++ [(q, FsNode.dir)]

/-- Python `path.mkdir(parents=True, exist_ok=True)` applied to `p`. -/
def mkdirParents (fs : Fs) (p : List String) : Fs :=
  (ancestorsOf p).foldl addDir fs

/-- True when `mkdir(parents=True, exist_ok=True)` on `p` raises because
some ancestor exists as a non-directory. -/
def mkdirClash (fs : Fs) (p : List String) : Bool :=
  (ancestorsOf p).any (fun q =>
    match lookupNode fs q with
    | some (FsNode.file _) => true
    | some FsNode.other => true
    | _ => false)

/-- Python `path.write_text(content, encoding="utf-8")`: truncate and
replace the node at `p` with a regular file holding the given bytes. -/
def setFile (fs : Fs) (p : List String) (content : List Nat) : Fs :=
  fs.filter (fun e => !(e.1 == p)) ++ [(p, FsNode.file content)]

/-- Final stage of `write_file` (main.py lines 190-210): record whether
the target exists (after parent creation, immediately before writing),
then truncate-write, with the `PermissionError` / `OSError` handlers of
the inner try.  `fs1` is the filesystem after parent creation and is
kept on error. -/
def write_step (env : Env) (fs1 : Fs) (file_path content : String) (path : List String) :
    Except Err String × Fs :=
  match env.writeErr path with
  | some OErr.perm =>
    (Except.error (Err.permissionDenied ("Permission denied writing file: " ++ file_path)), fs1)
  | some OErr.os =>
    (Except.error (Err.ioError ("Error writing file: " ++ osErrorMessage path)), fs1)
  | none =>
    (Except.ok ("Successfully " ++ (if pathExists fs1 path then "overwrote" else "created")
       ++ " file: " ++ file_path),
     setFile fs1 path (utf8Encode content))

/-- Body of `write_file` after path validation (main.py lines 173-210). -/
def write_file_checked (env : Env) (fs : Fs) (file_path content : String) (path : List String) :
    Except Err String × Fs :=
  if pathExists fs path && isDir fs path then
    (Except.error (Err.isADirectory ("Cannot write to directory: " ++ file_path)), fs)
  else
    match env.mkdirErr (parentPath path) with
    | some OErr.perm =>
      (Except.error (Err.permissionDenied
        ("Permission denied creating parent directories for: " ++ file_path)), fs)
    | some OErr.os =>
      (Except.error (Err.ioError
        ("Error creating parent directories: " ++ osErrorMessage (parentPath path))), fs)
    | none =>
      if mkdirClash fs (parentPath path) then
        (Except.error (Err.ioError
          ("Error creating parent directories: " ++ osErrorMessage (parentPath path))), fs)
      else
        write_step env (mkdirParents fs (parentPath path)) file_path content path

/-- Embedding of `write_file` (main.py lines 152-217): validate, reject
existing directories, create missing parents, record prior existence for
the message, then truncate-write.  Returns the result together with the
filesystem after the call (errors after parent creation keep the created
directories). -/
def write_file (env : Env) (fs : Fs) (file_path content : String) :
    Except Err String × Fs :=
  match validate_and_sanitize_path env file_path with
  | Except.error e => (Except.error e, fs)
  | Except.ok path => write_file_checked env fs file_path content path

/-- One row of the JSON listing produced by `list_directory` (key order
`name, type, size, modified, path, error`); `modified` is the stat
timestamp whose ISO-8601 rendering the code emits. -/
structure DirectoryEntry where
  name : String
  type : String
  size : Option Nat
  modified : Option Nat
  path : String
  error : Option String
  deriving DecidableEq, Repr

/-- The full `list_directory` response object. -/
structure DirectoryListing where
  directory : String
  entries : List DirectoryEntry
  total_entries : Nat
  deriving DecidableEq, Repr

/-- Names of the immediate children of `p`, in filesystem enumeration
order (Python `path.iterdir()`). -/
def childNames (fs : Fs) (p : List String) : List String :=
  fs.filterMap (fun e =>
    if e.1.length == p.length + 1 && e.1.take p.length == p then e.1.getLast? else none)

/-- Per-child body of the `list_directory` loop (main.py lines 255-292):
stat the child; on success report `directory`/`file` type, size for
regular files only, and the mtime; on `OSError`/`PermissionError` emit
the degraded entry. -/
def statEntry (env : Env) (fs : Fs) (p : List String) (n : String) : DirectoryEntry :=
  if env.statErr (p ++ [n]) then
    { name := n, type := "unknown", size := none, modified := none,
      path := renderPath (p ++ [n]), error := some "Permission denied or access error" }
  else
    { name := n
      type := if isDir fs (p ++ [n]) then "directory" else "file"
      size := match lookupNode fs (p ++ [n]) with
              | some (FsNode.file content) => some content.length
              | _ => none
      modified := some (env.mtime (p ++ [n]))
      path := renderPath (p ++ [n])
      error := none }

/-- Case-insensitive sort key `x["name"].lower()` as a code-point list. -/
def lowerKey (e : DirectoryEntry) : List Nat :=
  e.name.data.map (fun c => c.toLower.toNat)

/-- Lexicographic comparison of code-point lists (Python string `<=`). -/
def lexLE : List Nat → List Nat → Bool
  | [], _ => true
  | _ :: _, [] => false
  | a :: as, b :: bs => decide (a < b) || (decide (a = b) && lexLE as bs)

/-- Ordering relation used to sort listing entries. -/
def entryLE (a b : DirectoryEntry) : Prop :=
  lexLE (lowerKey a) (lowerKey b) = true

instance : DecidableRel entryLE :=
  fun a b => inferInstanceAs (Decidable (_ = true))

/-- Python `entries.sort(key=lambda x: x["name"].lower())`: a stable
ascending sort by the case-insensitive key. -/
def sortEntries (l : List DirectoryEntry) : List DirectoryEntry :=
  List.insertionSort entryLE l

/-- The sorted entry list `list_directory` builds for directory `path`
(main.py lines 252-295). -/
def listEntries (env : Env) (fs : Fs) (path : List String) : List DirectoryEntry :=
  sortEntries ((childNames fs path).map (statEntry env fs path))

/-- Body of `list_directory` after path validation (main.py lines
240-315). -/
def list_directory_checked (env : Env) (fs : Fs) (directory_path : String)
    (path : List String) : Except Err DirectoryListing :=
  if !(pathExists fs path) then
    Except.error (Err.notFound ("Directory not found: " ++ directory_path))
  else if !(isDir fs path) then
    Except.error (Err.notADirectory ("Path is not a directory: " ++ directory_path))
  else
    match env.iterErr path with
    | some OErr.perm =>
      Except.error (Err.permissionDenied ("Permission denied listing directory: " ++ directory_path))
    | some OErr.os =>
      Except.error (Err.ioError ("Error listing directory: " ++ osErrorMessage path))
    | none =>
      Except.ok { directory := renderPath path, entries := listEntries env fs path,
                  total_entries := (listEntries env fs path).length }

/-- Embedding of `list_directory` (main.py lines 220-322): validate,
require an existing directory, enumerate children (directory-level
enumeration failure aborts the call), build one entry per child with
per-entry degradation, sort, and return the listing with its count. -/
def list_directory (env : Env) (fs : Fs) (directory_path : String) :
    Except Err DirectoryListing :=
  match validate_and_sanitize_path env directory_path with
  | Except.error e => Except.error e
  | Except.ok path => list_directory_checked env fs directory_path path



theorem isCont_of {b : Nat} (h1 : 0x80 ≤ b) (h2 : b < 0xC0) : isCont b = true := by
  unfold isCont
  rw [decide_eq_true h1, decide_eq_true h2]
  rfl

theorem charValid (c : Char) : c.toNat < 0xD800 ∨ (0xDFFF < c.toNat ∧ c.toNat < 0x110000) := by
  have h := c.valid
  unfold UInt32.isValidChar Nat.isValidChar at h
  exact h

theorem decodeOne_encodeChar (c : Char) (rest : List Nat) :
    decodeOne (utf8EncodeChar c ++ rest) = some (c, rest) := by
  have hv := charValid c
  have hofn : Char.ofNat c.toNat = c := Char.ofNat_toNat c
  by_cases h1 : c.toNat < 0x80
  · have he : utf8EncodeChar c = [c.toNat] := by
      unfold utf8EncodeChar; rw [if_pos h1]
    rw [he]
    show decodeOne (c.toNat :: rest) = some (c, rest)
    simp only [decodeOne]
    rw [if_pos h1, hofn]
  · by_cases h2 : c.toNat < 0x800
    · have he : utf8EncodeChar c = [0xC0 + c.toNat / 64, 0x80 + c.toNat % 64] := by
        unfold utf8EncodeChar; rw [if_neg h1, if_pos h2]
      rw [he]
      show decodeOne ((0xC0 + c.toNat / 64) :: (0x80 + c.toNat % 64) :: rest) = some (c, rest)
      simp only [decodeOne]
      rw [if_neg (by omega), if_neg (by omega), if_pos (by omega)]
      rw [if_pos (isCont_of (by omega) (by omega))]
      rw [show (0xC0 + c.toNat / 64 - 0xC0) * 64 + (0x80 + c.toNat % 64 - 0x80) = c.toNat by omega]
      rw [hofn]
    · by_cases h3 : c.toNat < 0x10000
      · have he : utf8EncodeChar c =
            [0xE0 + c.toNat / 4096, 0x80 + c.toNat / 64 % 64, 0x80 + c.toNat % 64] := by
          unfold utf8EncodeChar; rw [if_neg h1, if_neg h2, if_pos h3]
        rw [he]
        show decodeOne ((0xE0 + c.toNat / 4096) :: (0x80 + c.toNat / 64 % 64) ::
          (0x80 + c.toNat % 64) :: rest) = some (c, rest)
        simp only [decodeOne]
        rw [if_neg (by omega), if_neg (by omega), if_neg (by omega), if_pos (by omega)]
        rw [if_pos (by rw [isCont_of (by omega) (by omega), isCont_of (by omega) (by omega)]; rfl)]
        rw [show (0xE0 + c.toNat / 4096 - 0xE0) * 4096 + (0x80 + c.toNat / 64 % 64 - 0x80) * 64 +
          (0x80 + c.toNat % 64 - 0x80) = c.toNat by omega]
        rw [if_pos (by omega)]
        rw [hofn]
      · have he : utf8EncodeChar c =
            [0xF0 + c.toNat / 262144, 0x80 + c.toNat / 4096 % 64, 0x80 + c.toNat / 64 % 64,
             0x80 + c.toNat % 64] := by
          unfold utf8EncodeChar; rw [if_neg h1, if_neg h2, if_neg h3]
        rw [he]
        show decodeOne ((0xF0 + c.toNat / 262144) :: (0x80 + c.toNat / 4096 % 64) ::
          (0x80 + c.toNat / 64 % 64) :: (0x80 + c.toNat % 64) :: rest) = some (c, rest)
        simp only [decodeOne]
        rw [if_neg (by omega), if_neg (by omega), if_neg (by omega), if_neg (by omega),
            if_pos (by omega)]
        rw [if_pos (by rw [isCont_of (by omega) (by omega), isCont_of (by omega) (by omega),
          isCont_of (by omega) (by omega)]; rfl)]
        rw [show (0xF0 + c.toNat / 262144 - 0xF0) * 262144 + (0x80 + c.toNat / 4096 % 64 - 0x80) * 4096 +
          (0x80 + c.toNat / 64 % 64 - 0x80) * 64 + (0x80 + c.toNat % 64 - 0x80) = c.toNat by omega]
        rw [if_pos (by omega)]
        rw [hofn]

theorem utf8DecodeF_nil (f : Nat) : utf8DecodeF f [] = some [] := by
  cases f <;> rfl

theorem decodeOne_shrinks {l : List Nat} {c : Char} {rest : List Nat}
    (h : decodeOne l = some (c, rest)) : rest.length < l.length := by
  match l with
  | [] => simp [decodeOne] at h
  | b1 :: t1 =>
    simp only [decodeOne] at h
    repeat' split at h
    all_goals simp_all [List.length_cons]
    all_goals omega

theorem utf8DecodeF_eq (f : Nat) : ∀ l : List Nat, l.length ≤ f → utf8DecodeF f l = utf8Decode l := by
  induction f using Nat.strong_induction_on with
  | _ f ih =>
    intro l hl
    match f, l with
    | f, [] => rw [utf8DecodeF_nil]; rfl
    | 0, b :: t => simp at hl
    | f + 1, b :: t =>
      show (match decodeOne (b :: t) with
            | some (c, rest) => (utf8DecodeF f rest).map (fun cs => c :: cs)
            | none => none) =
           (match decodeOne (b :: t) with
            | some (c, rest) => (utf8DecodeF t.length rest).map (fun cs => c :: cs)
            | none => none)
      cases hdec : decodeOne (b :: t) with
      | none => rfl
      | some pr =>
        obtain ⟨c, rest⟩ := pr
        have hsh := decodeOne_shrinks hdec
        have hlen : (b :: t).length = t.length + 1 := rfl
        have h1 : utf8DecodeF f rest = utf8Decode rest := by
          exact ih f (by omega) rest (by omega)
        have h2 : utf8DecodeF t.length rest = utf8Decode rest := by
          exact ih t.length (by omega) rest (by omega)
        show Option.map (fun cs => c :: cs) (utf8DecodeF f rest) =
          Option.map (fun cs => c :: cs) (utf8DecodeF t.length rest)
        rw [h1, h2]

theorem utf8Decode_step (l : List Nat) (hne : l ≠ []) :
    utf8Decode l =
      match decodeOne l with
      | some (c, rest) => (utf8Decode rest).map (fun cs => c :: cs)
      | none => none := by
  match l with
  | b :: t =>
    show (match decodeOne (b :: t) with
          | some (c, rest) => (utf8DecodeF t.length rest).map (fun cs => c :: cs)
          | none => none) = _
    cases hdec : decodeOne (b :: t) with
    | none => rfl
    | some pr =>
      obtain ⟨c, rest⟩ := pr
      have hsh := decodeOne_shrinks hdec
      show Option.map (fun cs => c :: cs) (utf8DecodeF t.length rest) =
        Option.map (fun cs => c :: cs) (utf8Decode rest)
      rw [utf8DecodeF_eq t.length rest (by simp at hsh; omega)]

theorem utf8EncodeChar_ne_nil (c : Char) : utf8EncodeChar c ≠ [] := by
  unfold utf8EncodeChar
  repeat' split
  all_goals simp

theorem utf8Decode_encodeChar (c : Char) (rest : List Nat) :
    utf8Decode (utf8EncodeChar c ++ rest) = (utf8Decode rest).map (fun cs => c :: cs) := by
  rw [utf8Decode_step (utf8EncodeChar c ++ rest)
      (by simp [utf8EncodeChar_ne_nil c])]
  rw [decodeOne_encodeChar]

theorem utf8Decode_encodeList (cs : List Char) :
    utf8Decode ((cs.map utf8EncodeChar).flatten) = some cs := by
  induction cs with
  | nil => rfl
  | cons c cs ih =>
    rw [List.map_cons, List.flatten_cons, utf8Decode_encodeChar, ih]
    rfl

theorem utf8Decode_utf8Encode (s : String) : utf8Decode (utf8Encode s) = some s.data :=
  utf8Decode_encodeList s.data

theorem lookupNode_append_left {l1 l2 : Fs} {p : List String} {x : FsNode}
    (h : lookupNode l1 p = some x) : lookupNode (l1 ++ l2) p = some x := by
  induction l1 with
  | nil => simp [lookupNode] at h
  | cons e rest ih =>
    rw [List.cons_append]
    rw [lookupNode] at h ⊢
    by_cases he : e.1 = p
    · rw [if_pos he] at h ⊢; exact h
    · rw [if_neg he] at h ⊢; exact ih h

theorem lookupNode_append_right {l1 l2 : Fs} {p : List String}
    (h : lookupNode l1 p = none) : lookupNode (l1 ++ l2) p = lookupNode l2 p := by
  induction l1 with
  | nil => rfl
  | cons e rest ih =>
    rw [List.cons_append]
    rw [lookupNode] at h ⊢
    by_cases he : e.1 = p
    · rw [if_pos he] at h; cases h
    · rw [if_neg he] at h ⊢; exact ih h

theorem lookupNode_filter_self (l : Fs) (p : List String) :
    lookupNode (l.filter (fun e => !(e.1 == p))) p = none := by
  induction l with
  | nil => rfl
  | cons e rest ih =>
    by_cases he : e.1 = p
    · simp only [List.filter_cons, he, beq_self_eq_true, Bool.not_true, if_neg]
      simpa using ih
    · simp only [List.filter_cons]
      rw [if_pos (by simp [he])]
      rw [lookupNode, if_neg he]
      exact ih

theorem lookupNode_filter_ne {q p : List String} (l : Fs) (h : q ≠ p) :
    lookupNode (l.filter (fun e => !(e.1 == p))) q = lookupNode l q := by
  induction l with
  | nil => rfl
  | cons e rest ih =>
    by_cases he : e.1 = p
    · have hq : e.1 ≠ q := by rw [he]; exact fun hh => h hh.symm
      simp only [List.filter_cons, he, beq_self_eq_true, Bool.not_true, if_neg]
      rw [lookupNode, if_neg hq]
      simpa using ih
    · simp only [List.filter_cons]
      rw [if_pos (by simp [he])]
      rw [lookupNode, lookupNode]
      by_cases hq : e.1 = q
      · rw [if_pos hq, if_pos hq]
      · rw [if_neg hq, if_neg hq]; exact ih

theorem lookupNode_setFile_self (fs : Fs) (p : List String) (content : List Nat) :
    lookupNode (setFile fs p content) p = some (FsNode.file content) := by
  unfold setFile
  rw [lookupNode_append_right (lookupNode_filter_self fs p)]
  simp [lookupNode]

theorem lookupNode_setFile_ne (fs : Fs) {q p : List String} (content : List Nat) (h : q ≠ p) :
    lookupNode (setFile fs p content) q = lookupNode fs q := by
  unfold setFile
  cases hq : lookupNode (fs.filter (fun e => !(e.1 == p))) q with
  | some x =>
    rw [lookupNode_append_left hq]
    rw [lookupNode_filter_ne fs h] at hq
    exact hq.symm
  | none =>
    rw [lookupNode_append_right hq]
    rw [lookupNode_filter_ne fs h] at hq
    rw [hq]
    have hpq : ¬ p = q := fun hh => h hh.symm
    simp [lookupNode, hpq]

theorem lookupNode_addDir_ne {fs : Fs} {q r : List String} (h : q ≠ r) :
    lookupNode (addDir fs r) q = lookupNode fs q := by
  unfold addDir
  cases hr : lookupNode fs r with
  | some x => rfl
  | none =>
    cases hq : lookupNode fs q with
    | some y => exact lookupNode_append_left hq
    | none =>
      rw [lookupNode_append_right hq]
      have hrq : ¬ r = q := fun hh => h hh.symm
      simp [lookupNode, hrq]

theorem lookupNode_addDir_self (fs : Fs) (r : List String) :
    lookupNode (addDir fs r) r = some ((lookupNode fs r).getD FsNode.dir) := by
  unfold addDir
  cases hr : lookupNode fs r with
  | some x => rw [hr]; rfl
  | none =>
    rw [lookupNode_append_right hr]
    simp [lookupNode]

theorem lookupNode_dir_addDir {fs : Fs} {q : List String}
    (h : lookupNode fs q = some FsNode.dir) (r : List String) :
    lookupNode (addDir fs r) q = some FsNode.dir := by
  by_cases hqr : q = r
  · subst hqr
    unfold addDir
    rw [h]
    exact h
  · rw [lookupNode_addDir_ne hqr]; exact h

theorem lookupNode_dir_foldl {L : List (List String)} {fs : Fs} {q : List String}
    (h : lookupNode fs q = some FsNode.dir) :
    lookupNode (L.foldl addDir fs) q = some FsNode.dir := by
  induction L generalizing fs with
  | nil => exact h
  | cons r L ih => rw [List.foldl_cons]; exact ih (lookupNode_dir_addDir h r)

theorem lookupNode_foldl_addDir_not_mem {L : List (List String)} {q : List String}
    (h : ∀ r ∈ L, r ≠ q) (fs : Fs) :
    lookupNode (L.foldl addDir fs) q = lookupNode fs q := by
  induction L generalizing fs with
  | nil => rfl
  | cons r L ih =>
    rw [List.foldl_cons]
    rw [ih (fun r' hr' => h r' (List.mem_cons_of_mem _ hr'))]
    exact lookupNode_addDir_ne (fun hh => h r (List.mem_cons_self _ _) hh.symm)

/-- A location where `mkdir(exist_ok=True)` cannot fail: nothing there,
or already a directory. -/
def dirOkAt (fs : Fs) (q : List String) : Prop :=
  lookupNode fs q = none ∨ lookupNode fs q = some FsNode.dir

theorem dirOkAt_addDir {fs : Fs} {q : List String} (h : dirOkAt fs q) (r : List String) :
    dirOkAt (addDir fs r) q := by
  by_cases hqr : q = r
  · subst hqr
    right
    rw [lookupNode_addDir_self]
    cases h with
    | inl h0 => rw [h0]; rfl
    | inr h0 => rw [h0]; rfl
  · unfold dirOkAt
    rw [lookupNode_addDir_ne hqr]
    exact h

theorem lookupNode_foldl_mem_dir {q : List String} :
    ∀ (L : List (List String)) (fs : Fs), q ∈ L → dirOkAt fs q →
      lookupNode (L.foldl addDir fs) q = some FsNode.dir := by
  intro L
  induction L with
  | nil => intro fs hq _; cases hq
  | cons r L ih =>
    intro fs hq hok
    rw [List.foldl_cons]
    rcases List.mem_cons.mp hq with h1 | h1
    · subst h1
      apply lookupNode_dir_foldl
      rw [lookupNode_addDir_self]
      cases hok with
      | inl h0 => rw [h0]; rfl
      | inr h0 => rw [h0]; rfl
    · exact ih (addDir fs r) h1 (dirOkAt_addDir hok r)

theorem dirOkAt_of_clash_false {fs : Fs} {p q : List String} (h : mkdirClash fs p = false)
    (hq : q ∈ ancestorsOf p) : dirOkAt fs q := by
  unfold mkdirClash at h
  rw [List.any_eq_false] at h
  have hthis := h q hq
  unfold dirOkAt
  cases hl : lookupNode fs q with
  | none => left; rfl
  | some x =>
    cases x with
    | file c => rw [hl] at hthis; simp at hthis
    | dir => right; rfl
    | other => rw [hl] at hthis; simp at hthis

theorem ancestors_parent_ne_self {p q : List String} (h : q ∈ ancestorsOf (parentPath p)) :
    q ≠ p := by
  unfold ancestorsOf parentPath at h
  rw [List.mem_map] at h
  obtain ⟨i, hi, rfl⟩ := h
  rw [List.mem_range] at hi
  intro he
  have h3 := congrArg List.length he
  rw [List.length_take, List.length_dropLast] at h3
  rw [List.length_dropLast] at hi
  omega

theorem lookupNode_mkdirParents_self (fs : Fs) (p : List String) :
    lookupNode (mkdirParents fs (parentPath p)) p = lookupNode fs p := by
  unfold mkdirParents
  exact lookupNode_foldl_addDir_not_mem (fun r hr => ancestors_parent_ne_self hr) fs

theorem lookupNode_mkdirParents_ancestor {fs : Fs} {p q : List String}
    (hcl : mkdirClash fs p = false) (hq : q ∈ ancestorsOf p) :
    lookupNode (mkdirParents fs p) q = some FsNode.dir :=
  lookupNode_foldl_mem_dir (ancestorsOf p) fs hq (dirOkAt_of_clash_false hcl hq)

theorem isDir_mkdirParents_ancestor {fs : Fs} {p q : List String}
    (hcl : mkdirClash fs p = false) (hq : q ∈ ancestorsOf p) :
    isDir (mkdirParents fs p) q = true := by
  unfold isDir
  rw [lookupNode_mkdirParents_ancestor hcl hq]

theorem lexLE_refl (x : List Nat) : lexLE x x = true := by
  induction x with
  | nil => rfl
  | cons a as ih => simp [lexLE, ih]

theorem lexLE_total (x y : List Nat) : lexLE x y = true ∨ lexLE y x = true := by
  induction x generalizing y with
  | nil => left; rfl
  | cons a as ih =>
    cases y with
    | nil => right; rfl
    | cons b bs =>
      rcases Nat.lt_trichotomy a b with h | h | h
      · left; simp [lexLE, h]
      · subst h
        rcases ih bs with h1 | h1
        · left; simp [lexLE, h1]
        · right; simp [lexLE, h1]
      · right; simp [lexLE, h]

theorem lexLE_trans {x : List Nat} :
    ∀ {y z : List Nat}, lexLE x y = true → lexLE y z = true → lexLE x z = true := by
  induction x with
  | nil => intro y z _ _; rfl
  | cons a as ih =>
    intro y z hxy hyz
    cases y with
    | nil => simp [lexLE] at hxy
    | cons b bs =>
      cases z with
      | nil => simp [lexLE] at hyz
      | cons c cs =>
        simp only [lexLE, Bool.or_eq_true, Bool.and_eq_true, decide_eq_true_eq] at hxy hyz ⊢
        rcases hxy with h1 | ⟨h1, h1x⟩
        · rcases hyz with h2 | ⟨h2, h2x⟩
          · left; omega
          · left; omega
        · rcases hyz with h2 | ⟨h2, h2x⟩
          · left; omega
          · right; exact ⟨by omega, ih h1x h2x⟩

instance : IsTotal DirectoryEntry entryLE :=
  ⟨fun a b => lexLE_total (lowerKey a) (lowerKey b)⟩

instance : IsTrans DirectoryEntry entryLE :=
  ⟨fun _ _ _ hab hbc => lexLE_trans hab hbc⟩

theorem entryLE_of_eq_keys {a b : DirectoryEntry} (h : lowerKey a = lowerKey b) : entryLE a b := by
  unfold entryLE
  rw [h]
  exact lexLE_refl _

theorem filter_orderedInsert_eq (k : List Nat) (x : DirectoryEntry) (hx : lowerKey x = k)
    (l : List DirectoryEntry) :
    (List.orderedInsert entryLE x l).filter (fun e => lowerKey e == k) =
      x :: l.filter (fun e => lowerKey e == k) := by
  induction l with
  | nil => simp [List.orderedInsert, hx]
  | cons y ys ih =>
    rw [List.orderedInsert]
    by_cases h : entryLE x y
    · rw [if_pos h]
      simp [List.filter_cons, hx]
    · rw [if_neg h]
      have hyk : lowerKey y ≠ k := by
        intro hk
        exact h (entryLE_of_eq_keys (by rw [hx, hk]))
      rw [List.filter_cons, if_neg (by simp [hyk]), List.filter_cons, if_neg (by simp [hyk])]
      exact ih

theorem filter_orderedInsert_ne (k : List Nat) (x : DirectoryEntry) (hx : lowerKey x ≠ k)
    (l : List DirectoryEntry) :
    (List.orderedInsert entryLE x l).filter (fun e => lowerKey e == k) =
      l.filter (fun e => lowerKey e == k) := by
  induction l with
  | nil => simp [List.orderedInsert, hx]
  | cons y ys ih =>
    rw [List.orderedInsert]
    by_cases h : entryLE x y
    · rw [if_pos h]
      rw [List.filter_cons, if_neg (by simp [hx])]
    · rw [if_neg h]
      rw [List.filter_cons, List.filter_cons]
      by_cases hy : lowerKey y = k
      · rw [if_pos (by simp [hy]), if_pos (by simp [hy]), ih]
      · rw [if_neg (by simp [hy]), if_neg (by simp [hy]), ih]

theorem filter_sortEntries (k : List Nat) (l : List DirectoryEntry) :
    (sortEntries l).filter (fun e => lowerKey e == k) = l.filter (fun e => lowerKey e == k) := by
  induction l with
  | nil => rfl
  | cons x xs ih =>
    show (List.orderedInsert entryLE x (List.insertionSort entryLE xs)).filter
        (fun e => lowerKey e == k) = _
    by_cases hx : lowerKey x = k
    · rw [filter_orderedInsert_eq k x hx]
      rw [List.filter_cons, if_pos (by simp [hx])]
      exact congrArg (fun l => x :: l) ih
    · rw [filter_orderedInsert_ne k x hx]
      rw [List.filter_cons, if_neg (by simp [hx])]
      exact ih

theorem validate_ok {env : Env} {raw : String} {path : List String}
    (h1 : pyStripIsEmpty raw = false) (h2 : raw.data.contains '\x00' = false)
    (h3 : env.resolve raw = some path) :
    validate_and_sanitize_path env raw = Except.ok path := by
  unfold validate_and_sanitize_path
  rw [if_neg (by rw [h1]; exact Bool.false_ne_true)]
  rw [if_neg (by rw [h2]; exact Bool.false_ne_true)]
  rw [h3]

theorem read_file_validated {env : Env} {fs : Fs} {raw : String} {path : List String}
    (h : validate_and_sanitize_path env raw = Except.ok path) :
    read_file env fs raw = read_file_checked env fs raw path := by
  unfold read_file
  rw [h]

theorem read_file_invalid {env : Env} {fs : Fs} {raw : String} {e : Err}
    (h : validate_and_sanitize_path env raw = Except.error e) :
    read_file env fs raw = Except.error e := by
  unfold read_file
  rw [h]

theorem write_file_validated {env : Env} {fs : Fs} {raw c : String} {path : List String}
    (h : validate_and_sanitize_path env raw = Except.ok path) :
    write_file env fs raw c = write_file_checked env fs raw c path := by
  unfold write_file
  rw [h]

theorem write_file_invalid {env : Env} {fs : Fs} {raw c : String} {e : Err}
    (h : validate_and_sanitize_path env raw = Except.error e) :
    write_file env fs raw c = (Except.error e, fs) := by
  unfold write_file
  rw [h]

theorem list_directory_validated {env : Env} {fs : Fs} {raw : String} {path : List String}
    (h : validate_and_sanitize_path env raw = Except.ok path) :
    list_directory env fs raw = list_directory_checked env fs raw path := by
  unfold list_directory
  rw [h]

theorem list_directory_invalid {env : Env} {fs : Fs} {raw : String} {e : Err}
    (h : validate_and_sanitize_path env raw = Except.error e) :
    list_directory env fs raw = Except.error e := by
  unfold list_directory
  rw [h]

theorem pathExists_of_lookup {fs : Fs} {p : List String} {x : FsNode}
    (h : lookupNode fs p = some x) : pathExists fs p = true := by
  unfold pathExists
  rw [h]
  rfl

theorem isFile_of_lookup {fs : Fs} {p : List String} {content : List Nat}
    (h : lookupNode fs p = some (FsNode.file content)) : isFile fs p = true := by
  unfold isFile
  rw [h]

theorem isDir_of_lookup_file {fs : Fs} {p : List String} {content : List Nat}
    (h : lookupNode fs p = some (FsNode.file content)) : isDir fs p = false := by
  unfold isDir
  rw [h]

theorem isDir_of_lookup_dir {fs : Fs} {p : List String}
    (h : lookupNode fs p = some FsNode.dir) : isDir fs p = true := by
  unfold isDir
  rw [h]

theorem is_binary_file_file {env : Env} {fs : Fs} {p : List String} {content : List Nat}
    (ho : env.openErr p = none) (hf : lookupNode fs p = some (FsNode.file content)) :
    is_binary_file env fs p = Except.ok ((content.take 8192).contains 0) := by
  unfold is_binary_file
  rw [ho, hf]

theorem is_binary_file_perm {env : Env} {fs : Fs} {p : List String}
    (ho : env.openErr p = some OErr.perm) :
    is_binary_file env fs p = Except.error () := by
  unfold is_binary_file
  rw [ho]

theorem decode_step_ok {fp : String} {content : List Nat} {cs : List Char}
    (h : utf8Decode content = some cs) :
    decode_step fp content = Except.ok (String.mk (univNewlines cs)) := by
  unfold decode_step
  rw [h]

theorem read_text_step_file {env : Env} {fs : Fs} {fp : String} {path : List String}
    {content : List Nat} (ho : env.openErr path = none)
    (hf : lookupNode fs path = some (FsNode.file content)) :
    read_text_step env fs fp path = decode_step fp content := by
  unfold read_text_step
  rw [ho, hf]

/-- An environment with the given resolver and no injected OS faults. -/
def noFaultEnv (res : String → Option (List String)) : Env where
  resolve := res
  mtime := fun _ => 0
  openErr := fun _ => none
  statErr := fun _ => false
  iterErr := fun _ => none
  mkdirErr := fun _ => none
  writeErr := fun _ => none

theorem univNewlines_eq_of_not_mem : ∀ {cs : List Char}, '\r' ∉ cs → univNewlines cs = cs := by
  intro cs
  induction cs with
  | nil => intro _; rfl
  | cons a l ih =>
    intro h
    have ha : ¬ a = '\r' := fun hh => h (hh ▸ List.mem_cons_self a l)
    have hl : '\r' ∉ l := fun hh => h (List.mem_cons_of_mem a hh)
    unfold univNewlines
    rw [if_neg ha, ih hl]

theorem read_file_ok (env : Env) (fs : Fs) (raw : String)
    (path : List String) (content : List Nat) (cs : List Char)
    (h1 : pyStripIsEmpty raw = false) (h2 : raw.data.contains '\x00' = false)
    (h3 : env.resolve raw = some path)
    (h4 : lookupNode fs path = some (FsNode.file content))
    (h5 : env.openErr path = none)
    (h6 : (content.take 8192).contains 0 = false)
    (h7 : utf8Decode content = some cs) :
    read_file env fs raw = Except.ok (String.mk (univNewlines cs)) := by
  rw [read_file_validated (validate_ok h1 h2 h3)]
  unfold read_file_checked
  rw [pathExists_of_lookup h4, isFile_of_lookup h4]
  rw [if_neg (by decide), if_neg (by decide)]
  rw [is_binary_file_file h5 h4, h6]
  show read_text_step env fs raw path = Except.ok (String.mk (univNewlines cs))
  rw [read_text_step_file h5 h4, decode_step_ok h7]

/-- A freshly written carriage-return-free file reads back as the
written string (the read's universal-newline translation is the
identity on it). -/
theorem read_file_roundtrip_ok (env : Env) (fs : Fs) (raw : String)
    (path : List String) (c : String)
    (h1 : pyStripIsEmpty raw = false) (h2 : raw.data.contains '\x00' = false)
    (h3 : env.resolve raw = some path)
    (hfile : lookupNode fs path = some (FsNode.file (utf8Encode c)))
    (ho : env.openErr path = none)
    (hbin : ((utf8Encode c).take 8192).contains 0 = false)
    (hcr : '\r' ∉ c.data) :
    read_file env fs raw = Except.ok c := by
  have h := read_file_ok env fs raw path (utf8Encode c) c.data h1 h2 h3 hfile ho hbin
    (utf8Decode_utf8Encode c)
  rw [h, univNewlines_eq_of_not_mem hcr]

/-- C1 (as amended): for every raw path string that contains a
non-whitespace character, is NUL-free, and resolves to an existing
regular file that can be opened, whose first 8192 bytes contain no NUL
byte and whose full content is valid UTF-8, `read_file` returns the
file's UTF-8-decoded content with the universal-newline translation of
text-mode reads applied (every CR-LF pair and every lone CR becomes
LF); in particular, for a file whose decoded content contains no
carriage return it returns exactly the decoded content as one string. -/
theorem C1_read_returns_decoded_content (env : Env) (fs : Fs) (raw : String)
    (path : List String) (content : List Nat) (cs : List Char)
    (h1 : pyStripIsEmpty raw = false) (h2 : raw.data.contains '\x00' = false)
    (h3 : env.resolve raw = some path)
    (h4 : lookupNode fs path = some (FsNode.file content))
    (h5 : env.openErr path = none)
    (h6 : (content.take 8192).contains 0 = false)
    (h7 : utf8Decode content = some cs) :
    read_file env fs raw = Except.ok (String.mk (univNewlines cs)) ∧
    ('\r' ∉ cs → read_file env fs raw = Except.ok (String.mk cs)) := by
  have h := read_file_ok env fs raw path content cs h1 h2 h3 h4 h5 h6 h7
  refine ⟨h, fun hcr => ?_⟩
  rw [h, univNewlines_eq_of_not_mem hcr]

def envC1 : Env := noFaultEnv (fun s => if s = "/tmp/a.txt" then some ["tmp", "a.txt"] else none)

def fsC1 : Fs := [(["tmp"], FsNode.dir), (["tmp", "a.txt"], FsNode.file [104, 105])]

/-- C1 witness: a concrete no-fault run returning the decoded content
(carriage-return-free, so the translation is the identity). -/
theorem C1_read_returns_decoded_content_witness :
    pyStripIsEmpty "/tmp/a.txt" = false ∧
    "/tmp/a.txt".data.contains '\x00' = false ∧
    envC1.resolve "/tmp/a.txt" = some ["tmp", "a.txt"] ∧
    lookupNode fsC1 ["tmp", "a.txt"] = some (FsNode.file [104, 105]) ∧
    envC1.openErr ["tmp", "a.txt"] = none ∧
    (([104, 105].take 8192).contains 0 = false) ∧
    utf8Decode [104, 105] = some ['h', 'i'] ∧
    read_file envC1 fsC1 "/tmp/a.txt" = Except.ok (String.mk (univNewlines ['h', 'i'])) ∧
    read_file envC1 fsC1 "/tmp/a.txt" = Except.ok (String.mk ['h', 'i']) :=
  ⟨by decide, by decide, by rfl, by rfl, by rfl, by decide, by rfl,
   (C1_read_returns_decoded_content envC1 fsC1 "/tmp/a.txt" ["tmp", "a.txt"] [104, 105]
     ['h', 'i'] (by decide) (by decide) (by rfl) (by rfl) (by rfl) (by decide) (by rfl)).1,
   (C1_read_returns_decoded_content envC1 fsC1 "/tmp/a.txt" ["tmp", "a.txt"] [104, 105]
     ['h', 'i'] (by decide) (by decide) (by rfl) (by rfl) (by rfl) (by decide) (by rfl)).2
     (by decide)⟩

def envC1x : Env := noFaultEnv (fun s => if s = " " then some [" "] else none)

def fsC1x : Fs := [([" "], FsNode.file [104])]

def envC1y : Env := noFaultEnv (fun s => if s = "/tmp/cr.txt" then some ["tmp", "cr.txt"] else none)

def fsC1y : Fs := [(["tmp", "cr.txt"], FsNode.file [97, 13, 98])]

/-- C1 counterexample, two independent refutations of the claim as
stated.  First, the raw path " " is non-empty, NUL-free, and (in this
environment) resolves to an existing readable regular file whose single
byte is NUL-free valid UTF-8, yet `read_file` rejects it as an empty
path: the claim omits that whitespace-only paths fail validation.
Second, a readable regular file holding the bytes of "a\rb" (valid
NUL-free UTF-8) reads back as "a\nb", not its decoded content:
`Path.read_text`'s universal-newline translation turns the carriage
return into a line feed. -/
theorem C1_counterexample :
    ((" " ≠ "") ∧
     (" ".data.contains '\x00' = false) ∧
     envC1x.resolve " " = some [" "] ∧
     lookupNode fsC1x [" "] = some (FsNode.file [104]) ∧
     envC1x.openErr [" "] = none ∧
     (([104].take 8192).contains 0 = false) ∧
     utf8Decode [104] = some ['h'] ∧
     read_file envC1x fsC1x " " = Except.error (Err.invalidPath "File path cannot be empty") ∧
     read_file envC1x fsC1x " " ≠ Except.ok (String.mk ['h'])) ∧
    (("/tmp/cr.txt" ≠ "") ∧
     ("/tmp/cr.txt".data.contains '\x00' = false) ∧
     envC1y.resolve "/tmp/cr.txt" = some ["tmp", "cr.txt"] ∧
     lookupNode fsC1y ["tmp", "cr.txt"] = some (FsNode.file [97, 13, 98]) ∧
     envC1y.openErr ["tmp", "cr.txt"] = none ∧
     (([97, 13, 98].take 8192).contains 0 = false) ∧
     utf8Decode [97, 13, 98] = some ['a', '\r', 'b'] ∧
     read_file envC1y fsC1y "/tmp/cr.txt" = Except.ok (String.mk ['a', '\n', 'b']) ∧
     read_file envC1y fsC1y "/tmp/cr.txt" ≠ Except.ok (String.mk ['a', '\r', 'b'])) := by
  refine ⟨⟨by decide, by decide, by rfl, by rfl, by rfl, by decide, by rfl, by rfl, ?_⟩,
    by decide, by decide, by rfl, by rfl, by rfl, by decide, by rfl, by rfl, ?_⟩
  · rw [show read_file envC1x fsC1x " " =
        Except.error (Err.invalidPath "File path cannot be empty") from rfl]
    intro h
    exact Except.noConfusion h
  · rw [show read_file envC1y fsC1y "/tmp/cr.txt" =
        Except.ok (String.mk ['a', '\n', 'b']) from rfl]
    intro h
    injection h with h2
    exact absurd h2 (by decide)

/-- C3: for every existing regular file that can be opened and whose
first 8192 bytes contain at least one NUL byte, `read_file` fails with
the binary-file error regardless of the content beyond that prefix, and
the classifier returns true iff a NUL byte appears in the bounded
prefix. -/
theorem C3_binary_prefix_rejected (env : Env) (fs : Fs) (raw : String)
    (path : List String) (content : List Nat)
    (h1 : pyStripIsEmpty raw = false) (h2 : raw.data.contains '\x00' = false)
    (h3 : env.resolve raw = some path)
    (h4 : lookupNode fs path = some (FsNode.file content))
    (h5 : env.openErr path = none) :
    is_binary_file env fs path = Except.ok ((content.take 8192).contains 0) ∧
    ((content.take 8192).contains 0 = true →
      read_file env fs raw =
        Except.error (Err.binaryFile
          ("Cannot read binary file: " ++ raw ++ ". Only text files are supported."))) := by
  refine ⟨is_binary_file_file h5 h4, fun h6 => ?_⟩
  rw [read_file_validated (validate_ok h1 h2 h3)]
  unfold read_file_checked
  rw [pathExists_of_lookup h4, isFile_of_lookup h4]
  rw [if_neg (by decide), if_neg (by decide)]
  rw [is_binary_file_file h5 h4, h6]

def envC3 : Env := noFaultEnv (fun s => if s = "/tmp/b.bin" then some ["tmp", "b.bin"] else none)

def fsC3 : Fs := [(["tmp", "b.bin"], FsNode.file [0, 65])]

/-- C3 witness: a two-byte file starting with NUL is rejected as binary. -/
theorem C3_binary_prefix_rejected_witness :
    pyStripIsEmpty "/tmp/b.bin" = false ∧
    "/tmp/b.bin".data.contains '\x00' = false ∧
    envC3.resolve "/tmp/b.bin" = some ["tmp", "b.bin"] ∧
    lookupNode fsC3 ["tmp", "b.bin"] = some (FsNode.file [0, 65]) ∧
    envC3.openErr ["tmp", "b.bin"] = none ∧
    (([0, 65].take 8192).contains 0 = true) ∧
    is_binary_file envC3 fsC3 ["tmp", "b.bin"] = Except.ok true ∧
    read_file envC3 fsC3 "/tmp/b.bin" =
      Except.error (Err.binaryFile
        ("Cannot read binary file: " ++ "/tmp/b.bin" ++ ". Only text files are supported.")) := by
  refine ⟨by decide, by decide, by rfl, by rfl, by rfl, by decide, ?_, ?_⟩
  · have h := (C3_binary_prefix_rejected envC3 fsC3 "/tmp/b.bin" ["tmp", "b.bin"] [0, 65]
      (by decide) (by decide) (by rfl) (by rfl) (by rfl)).1
    rw [h]
    rfl
  · exact (C3_binary_prefix_rejected envC3 fsC3 "/tmp/b.bin" ["tmp", "b.bin"] [0, 65]
      (by decide) (by decide) (by rfl) (by rfl) (by rfl)).2 (by decide)

/-- C4: the claim is right about the intended behavior and the code is
wrong.  When the binary-classification probe raises a permission error,
`read_file` does not surface the distinct permission-denied failure of
its read handler: the probe call sits outside the inner try, so the
re-raised `PermissionError` reaches the outer catch-all and is wrapped
as the "Unexpected error reading file" failure (kind `unexpected`).
This theorem evaluates the code at such an input. -/
theorem C4_probe_permission_becomes_unexpected (env : Env) (fs : Fs) (raw : String)
    (path : List String) (content : List Nat)
    (h1 : pyStripIsEmpty raw = false) (h2 : raw.data.contains '\x00' = false)
    (h3 : env.resolve raw = some path)
    (h4 : lookupNode fs path = some (FsNode.file content))
    (h5 : env.openErr path = some OErr.perm) :
    read_file env fs raw =
      Except.error (Err.unexpected ("Unexpected error reading file: " ++ osPermissionMessage path)) ∧
    read_file env fs raw ≠
      Except.error (Err.permissionDenied ("Permission denied reading file: " ++ raw)) := by
  have hmain : read_file env fs raw =
      Except.error (Err.unexpected ("Unexpected error reading file: " ++ osPermissionMessage path)) := by
    rw [read_file_validated (validate_ok h1 h2 h3)]
    unfold read_file_checked
    rw [pathExists_of_lookup h4, isFile_of_lookup h4]
    rw [if_neg (by decide), if_neg (by decide)]
    rw [is_binary_file_perm h5]
  refine ⟨hmain, ?_⟩
  rw [hmain]
  intro h
  injection h with h2
  exact Err.noConfusion h2

def envC4 : Env :=
  { noFaultEnv (fun s => if s = "/tmp/c.txt" then some ["tmp", "c.txt"] else none) with
    openErr := fun p => if p = ["tmp", "c.txt"] then some OErr.perm else none }

def fsC4 : Fs := [(["tmp", "c.txt"], FsNode.file [65])]

/-- C4 witness: concrete unreadable file; the probe's permission error
surfaces as the catch-all unexpected failure. -/
theorem C4_probe_permission_becomes_unexpected_witness :
    pyStripIsEmpty "/tmp/c.txt" = false ∧
    "/tmp/c.txt".data.contains '\x00' = false ∧
    envC4.resolve "/tmp/c.txt" = some ["tmp", "c.txt"] ∧
    lookupNode fsC4 ["tmp", "c.txt"] = some (FsNode.file [65]) ∧
    envC4.openErr ["tmp", "c.txt"] = some OErr.perm ∧
    read_file envC4 fsC4 "/tmp/c.txt" =
      Except.error (Err.unexpected
        ("Unexpected error reading file: " ++ osPermissionMessage ["tmp", "c.txt"])) ∧
    read_file envC4 fsC4 "/tmp/c.txt" ≠
      Except.error (Err.permissionDenied ("Permission denied reading file: " ++ "/tmp/c.txt")) := by
  refine ⟨by decide, by decide, by rfl, by rfl, by rfl, ?_, ?_⟩
  · exact (C4_probe_permission_becomes_unexpected envC4 fsC4 "/tmp/c.txt" ["tmp", "c.txt"] [65]
      (by decide) (by decide) (by rfl) (by rfl) (by rfl)).1
  · exact (C4_probe_permission_becomes_unexpected envC4 fsC4 "/tmp/c.txt" ["tmp", "c.txt"] [65]
      (by decide) (by decide) (by rfl) (by rfl) (by rfl)).2

theorem mkdirClash_eq_false_of_dirs {fs : Fs} {p : List String}
    (h : ∀ q ∈ ancestorsOf p, lookupNode fs q = some FsNode.dir) :
    mkdirClash fs p = false := by
  unfold mkdirClash
  rw [List.any_eq_false]
  intro q hq
  rw [h q hq]
  simp

theorem pathExists_mkdirParents_self (fs : Fs) (p : List String) :
    pathExists (mkdirParents fs (parentPath p)) p = pathExists fs p := by
  unfold pathExists
  rw [lookupNode_mkdirParents_self]

/-- On a validated path that is not an existing directory, with parent
creation and the write both succeeding, `write_file` returns the success
message and the filesystem with parents created and the file replaced. -/
theorem write_file_success_state (env : Env) (fs : Fs) (raw c : String) (path : List String)
    (h1 : pyStripIsEmpty raw = false) (h2 : raw.data.contains '\x00' = false)
    (h3 : env.resolve raw = some path)
    (hdir : isDir fs path = false)
    (hmk : env.mkdirErr (parentPath path) = none)
    (hcl : mkdirClash fs (parentPath path) = false)
    (hw : env.writeErr path = none) :
    write_file env fs raw c =
      (Except.ok ("Successfully " ++
         (if pathExists (mkdirParents fs (parentPath path)) path then "overwrote" else "created")
         ++ " file: " ++ raw),
       setFile (mkdirParents fs (parentPath path)) path (utf8Encode c)) := by
  rw [write_file_validated (validate_ok h1 h2 h3)]
  unfold write_file_checked
  rw [hdir, Bool.and_false]
  rw [if_neg (by decide)]
  rw [hmk, hcl]
  rw [if_neg (by decide)]
  unfold write_step
  rw [hw]

/-- C2 (as amended): for every valid writable path and every content
string that contains no carriage return and whose UTF-8 encoding has no
NUL byte among its first 8192 bytes (in particular any string without
NUL and CR characters), a write followed by a read returns exactly the
written content, including the empty string and paths whose ancestor
directories do not exist yet; a second write fully replaces the prior
content, so the subsequent read returns the second content and never a
concatenation.  (A NUL character makes the read fail the binary check;
a carriage return is translated to a line feed by the text-mode
read.) -/
theorem C2_write_read_roundtrip (env : Env) (fs : Fs) (raw c c1 : String) (path : List String)
    (h1 : pyStripIsEmpty raw = false) (h2 : raw.data.contains '\x00' = false)
    (h3 : env.resolve raw = some path)
    (hdir : isDir fs path = false)
    (hmk : env.mkdirErr (parentPath path) = none)
    (hcl : mkdirClash fs (parentPath path) = false)
    (hw : env.writeErr path = none)
    (ho : env.openErr path = none)
    (hbin : ((utf8Encode c).take 8192).contains 0 = false)
    (hcr : '\r' ∉ c.data) :
    (∃ m, (write_file env fs raw c).1 = Except.ok m) ∧
    read_file env (write_file env fs raw c).2 raw = Except.ok c ∧
    read_file env (write_file env (write_file env fs raw c1).2 raw c).2 raw = Except.ok c := by
  have hws := write_file_success_state env fs raw c path h1 h2 h3 hdir hmk hcl hw
  have hws1 := write_file_success_state env fs raw c1 path h1 h2 h3 hdir hmk hcl hw
  refine ⟨⟨_, by rw [hws]⟩, ?_, ?_⟩
  · rw [hws]
    exact read_file_roundtrip_ok env _ raw path c h1 h2 h3
      (lookupNode_setFile_self _ _ _) ho hbin hcr
  · rw [hws1]
    show read_file env
      (write_file env (setFile (mkdirParents fs (parentPath path)) path (utf8Encode c1))
        raw c).2 raw = Except.ok c
    have hdir1 : isDir (setFile (mkdirParents fs (parentPath path)) path (utf8Encode c1))
        path = false :=
      isDir_of_lookup_file (lookupNode_setFile_self _ _ _)
    have hcl1 : mkdirClash (setFile (mkdirParents fs (parentPath path)) path (utf8Encode c1))
        (parentPath path) = false := by
      apply mkdirClash_eq_false_of_dirs
      intro q hq
      rw [lookupNode_setFile_ne _ _ (ancestors_parent_ne_self hq)]
      exact lookupNode_mkdirParents_ancestor hcl hq
    have hws2 := write_file_success_state env
      (setFile (mkdirParents fs (parentPath path)) path (utf8Encode c1)) raw c path
      h1 h2 h3 hdir1 hmk hcl1 hw
    rw [hws2]
    exact read_file_roundtrip_ok env _ raw path c h1 h2 h3
      (lookupNode_setFile_self _ _ _) ho hbin hcr

def envC2 : Env := noFaultEnv (fun s => if s = "f" then some ["f"] else none)

/-- C2 witness: on an empty filesystem, write then read returns the
content, and overwrite then read returns the second content. -/
theorem C2_write_read_roundtrip_witness :
    pyStripIsEmpty "f" = false ∧
    envC2.resolve "f" = some ["f"] ∧
    isDir ([] : Fs) ["f"] = false ∧
    ((utf8Encode "hi").take 8192).contains 0 = false ∧
    ('\r' ∉ "hi".data) ∧
    (∃ m, (write_file envC2 [] "f" "hi").1 = Except.ok m) ∧
    read_file envC2 (write_file envC2 [] "f" "hi").2 "f" = Except.ok "hi" ∧
    read_file envC2 (write_file envC2 (write_file envC2 [] "f" "one").2 "f" "hi").2 "f" =
      Except.ok "hi" := by
  have h := C2_write_read_roundtrip envC2 [] "f" "hi" "one" ["f"]
    (by decide) (by decide) (by rfl) (by rfl) (by rfl) (by rfl) (by rfl) (by rfl) (by decide)
    (by decide)
  exact ⟨by decide, by rfl, by rfl, by decide, by decide, h.1, h.2.1, h.2.2⟩

/-- C2 counterexample, two independent refutations of the claim as
frozen (which quantifies over every content string).  First, writing
the one-character string containing only the NUL character succeeds and
the read back then fails the binary check.  Second, writing "a\rb"
(NUL-free) stores the bytes of "a\rb", but the read returns "a\nb":
the text-mode read's universal-newline translation turns the carriage
return into a line feed, so write-then-read does not return the written
content. -/
theorem C2_counterexample :
    ((∃ m, (write_file envC2 [] "f" "\x00").1 = Except.ok m) ∧
     read_file envC2 (write_file envC2 [] "f" "\x00").2 "f" =
       Except.error (Err.binaryFile "Cannot read binary file: f. Only text files are supported.") ∧
     read_file envC2 (write_file envC2 [] "f" "\x00").2 "f" ≠ Except.ok "\x00") ∧
    ((∃ m, (write_file envC2 [] "f" "a\rb").1 = Except.ok m) ∧
     (write_file envC2 [] "f" "a\rb").2 = [(["f"], FsNode.file [97, 13, 98])] ∧
     read_file envC2 (write_file envC2 [] "f" "a\rb").2 "f" = Except.ok "a\nb" ∧
     read_file envC2 (write_file envC2 [] "f" "a\rb").2 "f" ≠ Except.ok "a\rb") := by
  refine ⟨⟨⟨"Successfully created file: f", by rfl⟩, by rfl, ?_⟩,
    ⟨"Successfully created file: f", by rfl⟩, by rfl, by rfl, ?_⟩
  · rw [show read_file envC2 (write_file envC2 [] "f" "\x00").2 "f" =
        Except.error (Err.binaryFile "Cannot read binary file: f. Only text files are supported.")
        from rfl]
    intro h
    exact Except.noConfusion h
  · rw [show read_file envC2 (write_file envC2 [] "f" "a\rb").2 "f" = Except.ok "a\nb" from rfl]
    intro h
    injection h with h2
    exact absurd h2 (by decide)

theorem validate_invalid_cases (env : Env) (raw : String)
    (h : pyStripIsEmpty raw = true ∨ raw.data.contains '\x00' = true) :
    ∃ m, validate_and_sanitize_path env raw = Except.error (Err.invalidPath m) ∧
      (pyStripIsEmpty raw = true → m = "File path cannot be empty") := by
  unfold validate_and_sanitize_path
  by_cases he : pyStripIsEmpty raw = true
  · refine ⟨"File path cannot be empty", ?_, fun _ => rfl⟩
    rw [if_pos he]
  · have hn : raw.data.contains '\x00' = true := by
      rcases h with h | h
      · exact absurd h he
      · exact h
    refine ⟨"Invalid characters in file path", ?_, fun hh => absurd hh he⟩
    rw [if_neg he, if_pos hn]

/-- C8: for every raw path that is empty, whitespace-only, or contains a
NUL byte, each of the three operations fails with the invalid-path error
before any filesystem access (the write leaves the filesystem
unchanged), and in the empty/whitespace case the failure message
contains "cannot be empty". -/
theorem C8_invalid_path_rejected (env : Env) (fs : Fs) (raw c : String)
    (h : pyStripIsEmpty raw = true ∨ raw.data.contains '\x00' = true) :
    (∃ m, read_file env fs raw = Except.error (Err.invalidPath m)) ∧
    (∃ m, (write_file env fs raw c).1 = Except.error (Err.invalidPath m)) ∧
    (write_file env fs raw c).2 = fs ∧
    (∃ m, list_directory env fs raw = Except.error (Err.invalidPath m)) ∧
    (pyStripIsEmpty raw = true →
      ∃ pre post, read_file env fs raw =
        Except.error (Err.invalidPath (pre ++ ("cannot be empty" ++ post)))) := by
  obtain ⟨m, hv, hm⟩ := validate_invalid_cases env raw h
  refine ⟨⟨m, read_file_invalid hv⟩, ⟨m, by rw [write_file_invalid hv]⟩,
    by rw [write_file_invalid hv], ⟨m, list_directory_invalid hv⟩, fun he => ?_⟩
  refine ⟨"File path ", "", ?_⟩
  rw [read_file_invalid hv, hm he]
  rfl

/-- C8 witness: the empty path is rejected everywhere with no side
effect, with the "cannot be empty" message. -/
theorem C8_invalid_path_rejected_witness :
    (pyStripIsEmpty "" = true ∨ "".data.contains '\x00' = true) ∧
    ((∃ m, read_file envC2 fsC1 "" = Except.error (Err.invalidPath m)) ∧
     (∃ m, (write_file envC2 fsC1 "" "x").1 = Except.error (Err.invalidPath m)) ∧
     (write_file envC2 fsC1 "" "x").2 = fsC1 ∧
     (∃ m, list_directory envC2 fsC1 "" = Except.error (Err.invalidPath m)) ∧
     (pyStripIsEmpty "" = true →
       ∃ pre post, read_file envC2 fsC1 "" =
         Except.error (Err.invalidPath (pre ++ ("cannot be empty" ++ post))))) :=
  ⟨Or.inl (by decide), C8_invalid_path_rejected envC2 fsC1 "" "x" (Or.inl (by decide))⟩

theorem string_append_assoc (a b c : String) : a ++ b ++ c = a ++ (b ++ c) := by
  cases a with
  | mk da =>
    cases b with
    | mk db =>
      cases c with
      | mk dc =>
        show String.mk (da ++ db ++ dc) = String.mk (da ++ (db ++ dc))
        rw [List.append_assoc]

/-- C9: every successful `write_file` returns the success message built
from the pre-write existence check: it contains "overwrote" exactly when
the target existed immediately before the write and "created" when it
did not; the message string is the entire success payload, so the text
is the only creation/overwrite discriminator exposed to the caller. -/
theorem C9_message_discriminates (env : Env) (fs : Fs) (raw c : String) (path : List String)
    (h1 : pyStripIsEmpty raw = false) (h2 : raw.data.contains '\x00' = false)
    (h3 : env.resolve raw = some path)
    (hdir : isDir fs path = false)
    (hmk : env.mkdirErr (parentPath path) = none)
    (hcl : mkdirClash fs (parentPath path) = false)
    (hw : env.writeErr path = none) :
    (write_file env fs raw c).1 =
      Except.ok ("Successfully " ++ (if pathExists fs path then "overwrote" else "created")
        ++ " file: " ++ raw) ∧
    (pathExists fs path = true →
      ∃ pre post, (write_file env fs raw c).1 = Except.ok (pre ++ ("overwrote" ++ post))) ∧
    (pathExists fs path = false →
      ∃ pre post, (write_file env fs raw c).1 = Except.ok (pre ++ ("created" ++ post))) := by
  have hws := write_file_success_state env fs raw c path h1 h2 h3 hdir hmk hcl hw
  have hmain : (write_file env fs raw c).1 =
      Except.ok ("Successfully " ++ (if pathExists fs path then "overwrote" else "created")
        ++ " file: " ++ raw) := by
    rw [hws, pathExists_mkdirParents_self fs path]
  refine ⟨hmain, fun hex => ?_, fun hex => ?_⟩
  · refine ⟨"Successfully ", " file: " ++ raw, ?_⟩
    rw [hmain, hex, if_pos rfl]
    rw [string_append_assoc, string_append_assoc]
  · refine ⟨"Successfully ", " file: " ++ raw, ?_⟩
    rw [hmain, hex]
    rw [if_neg (by decide)]
    rw [string_append_assoc, string_append_assoc]

def envC9 : Env := noFaultEnv (fun s => if s = "g" then some ["g"] else none)

/-- C9 witness: on an empty filesystem the first write reports
"created"; after it the target exists, so a second write would report
"overwrote" (witnessed through the existing-file case on the written
state). -/
theorem C9_message_discriminates_witness :
    pathExists ([] : Fs) ["g"] = false ∧
    (∃ pre post, (write_file envC9 [] "g" "x").1 = Except.ok (pre ++ ("created" ++ post))) ∧
    pathExists (write_file envC9 [] "g" "x").2 ["g"] = true ∧
    (∃ pre post, (write_file envC9 (write_file envC9 [] "g" "x").2 "g" "y").1 =
      Except.ok (pre ++ ("overwrote" ++ post))) := by
  refine ⟨by rfl, ?_, by rfl, ?_⟩
  · exact (C9_message_discriminates envC9 [] "g" "x" ["g"]
      (by decide) (by decide) (by rfl) (by rfl) (by rfl) (by rfl) (by rfl)).2.2 (by rfl)
  · exact (C9_message_discriminates envC9 (write_file envC9 [] "g" "x").2 "g" "y" ["g"]
      (by decide) (by decide) (by rfl) (by rfl) (by rfl) (by rfl) (by rfl)).2.1 (by rfl)

/-- C10: when validation and the directory-target check pass, parent
creation succeeds, and the final write step fails with a permission
error, `write_file` returns the permission-denied error while the
filesystem it leaves behind is exactly the one with the missing ancestor
directories created: the ancestor-creation side effect is not rolled
back on error. -/
theorem C10_mkdir_persists_on_write_failure (env : Env) (fs : Fs) (raw c : String)
    (path : List String)
    (h1 : pyStripIsEmpty raw = false) (h2 : raw.data.contains '\x00' = false)
    (h3 : env.resolve raw = some path)
    (hdir : isDir fs path = false)
    (hmk : env.mkdirErr (parentPath path) = none)
    (hcl : mkdirClash fs (parentPath path) = false)
    (hw : env.writeErr path = some OErr.perm) :
    write_file env fs raw c =
      (Except.error (Err.permissionDenied ("Permission denied writing file: " ++ raw)),
       mkdirParents fs (parentPath path)) ∧
    ∀ q ∈ ancestorsOf (parentPath path), isDir (write_file env fs raw c).2 q = true := by
  have hmain : write_file env fs raw c =
      (Except.error (Err.permissionDenied ("Permission denied writing file: " ++ raw)),
       mkdirParents fs (parentPath path)) := by
    rw [write_file_validated (validate_ok h1 h2 h3)]
    unfold write_file_checked
    rw [hdir, Bool.and_false, if_neg (by decide), hmk, hcl, if_neg (by decide)]
    unfold write_step
    rw [hw]
  refine ⟨hmain, fun q hq => ?_⟩
  rw [hmain]
  exact isDir_mkdirParents_ancestor hcl hq

def envC10 : Env :=
  { noFaultEnv (fun s => if s = "/a/b/f" then some ["a", "b", "f"] else none) with
    writeErr := fun p => if p = ["a", "b", "f"] then some OErr.perm else none }

/-- C10 witness: writing `/a/b/f` on an empty filesystem with the final
write denied leaves `/a` and `/a/b` created as directories. -/
theorem C10_mkdir_persists_on_write_failure_witness :
    envC10.writeErr ["a", "b", "f"] = some OErr.perm ∧
    write_file envC10 [] "/a/b/f" "x" =
      (Except.error (Err.permissionDenied ("Permission denied writing file: " ++ "/a/b/f")),
       mkdirParents [] (parentPath ["a", "b", "f"])) ∧
    (∀ q ∈ ancestorsOf (parentPath ["a", "b", "f"]),
      isDir (write_file envC10 [] "/a/b/f" "x").2 q = true) ∧
    isDir (write_file envC10 [] "/a/b/f" "x").2 ["a"] = true ∧
    isDir (write_file envC10 [] "/a/b/f" "x").2 ["a", "b"] = true := by
  have h := C10_mkdir_persists_on_write_failure envC10 [] "/a/b/f" "x" ["a", "b", "f"]
    (by decide) (by decide) (by rfl) (by rfl) (by rfl) (by rfl) (by rfl)
  refine ⟨by rfl, h.1, h.2, ?_, ?_⟩
  · exact h.2 ["a"] (by decide)
  · exact h.2 ["a", "b"] (by decide)

theorem statEntry_name (env : Env) (fs : Fs) (p : List String) (n : String) :
    (statEntry env fs p n).name = n := by
  unfold statEntry
  split <;> rfl

theorem statEntry_degraded {env : Env} (fs : Fs) {p : List String} {n : String}
    (h : env.statErr (p ++ [n]) = true) :
    statEntry env fs p n =
      { name := n, type := "unknown", size := none, modified := none,
        path := renderPath (p ++ [n]),
        error := some "Permission denied or access error" } := by
  unfold statEntry
  rw [h]
  rw [if_pos rfl]

theorem statEntry_normal {env : Env} {fs : Fs} {p : List String} {n : String}
    (h : env.statErr (p ++ [n]) = false) :
    statEntry env fs p n =
      { name := n
        type := if isDir fs (p ++ [n]) then "directory" else "file"
        size := match lookupNode fs (p ++ [n]) with
                | some (FsNode.file content) => some content.length
                | _ => none
        modified := some (env.mtime (p ++ [n]))
        path := renderPath (p ++ [n])
        error := none } := by
  unfold statEntry
  rw [h]
  rw [if_neg (by decide)]

theorem list_directory_ok (env : Env) (fs : Fs) (raw : String) (path : List String)
    (h1 : pyStripIsEmpty raw = false) (h2 : raw.data.contains '\x00' = false)
    (h3 : env.resolve raw = some path)
    (hd : lookupNode fs path = some FsNode.dir)
    (hi : env.iterErr path = none) :
    list_directory env fs raw =
      Except.ok { directory := renderPath path, entries := listEntries env fs path,
                  total_entries := (listEntries env fs path).length } := by
  rw [list_directory_validated (validate_ok h1 h2 h3)]
  unfold list_directory_checked
  rw [pathExists_of_lookup hd, isDir_of_lookup_dir hd]
  rw [if_neg (by decide), if_neg (by decide)]
  rw [hi]

theorem perm_listEntries (env : Env) (fs : Fs) (path : List String) :
    (listEntries env fs path).Perm ((childNames fs path).map (statEntry env fs path)) :=
  List.perm_insertionSort entryLE _

theorem filter_beq_of_nodup {l : List String} {c : String} (hnd : l.Nodup) (hc : c ∈ l) :
    l.filter (fun n => n == c) = [c] := by
  induction l with
  | nil => cases hc
  | cons a l ih =>
    rw [List.nodup_cons] at hnd
    rcases List.mem_cons.mp hc with h1 | h1
    · subst h1
      rw [List.filter_cons, if_pos (by simp)]
      have hnil : l.filter (fun n => n == c) = [] := by
        rw [List.filter_eq_nil_iff]
        intro b hb
        simp only [beq_iff_eq]
        intro he
        subst he
        exact hnd.1 hb
      rw [hnil]
    · have hac : ¬(a == c) = true := by
        simp only [beq_iff_eq]
        intro he
        subst he
        exact hnd.1 h1
      rw [List.filter_cons, if_neg hac]
      exact ih hnd.2 h1

/-- C5: when exactly one immediate child of a listed directory fails its
per-entry stat and all other children succeed, `list_directory` still
succeeds and returns all N entries: the failing child appears exactly
once, as the degraded entry with type "unknown", null size, null
modified and the fixed diagnostic string, while every other entry
carries no error field; the per-entry failure never aborts the
listing. -/
theorem C5_per_entry_failure_degrades (env : Env) (fs : Fs) (raw : String)
    (path : List String) (c0 : String)
    (h1 : pyStripIsEmpty raw = false) (h2 : raw.data.contains '\x00' = false)
    (h3 : env.resolve raw = some path)
    (hd : lookupNode fs path = some FsNode.dir)
    (hi : env.iterErr path = none)
    (hnd : (childNames fs path).Nodup)
    (hc0 : c0 ∈ childNames fs path)
    (herr : env.statErr (path ++ [c0]) = true)
    (hok : ∀ n ∈ childNames fs path, n ≠ c0 → env.statErr (path ++ [n]) = false) :
    ∃ dl, list_directory env fs raw = Except.ok dl ∧
      dl.entries.length = (childNames fs path).length ∧
      dl.total_entries = (childNames fs path).length ∧
      dl.entries.filter (fun e => e.name == c0) =
        [{ name := c0, type := "unknown", size := none, modified := none,
           path := renderPath (path ++ [c0]),
           error := some "Permission denied or access error" }] ∧
      (∀ e ∈ dl.entries, e.name ≠ c0 → e.error = none) := by
  have hperm := perm_listEntries env fs path
  have hlen : (listEntries env fs path).length = (childNames fs path).length := by
    rw [hperm.length_eq, List.length_map]
  have hmapfilter : ((childNames fs path).map (statEntry env fs path)).filter
      (fun e => e.name == c0) = [statEntry env fs path c0] := by
    rw [List.filter_map]
    have hcong : (childNames fs path).filter
        ((fun e => e.name == c0) ∘ statEntry env fs path) =
        (childNames fs path).filter (fun n => n == c0) := by
      apply List.filter_congr
      intro n _
      show ((statEntry env fs path n).name == c0) = (n == c0)
      rw [statEntry_name]
    rw [hcong, filter_beq_of_nodup hnd hc0]
    rfl
  have hfilter : (listEntries env fs path).filter (fun e => e.name == c0) =
      [{ name := c0, type := "unknown", size := none, modified := none,
         path := renderPath (path ++ [c0]),
         error := some "Permission denied or access error" }] := by
    have hp := hperm.filter (fun e => e.name == c0)
    rw [hmapfilter] at hp
    rw [List.perm_singleton.mp hp]
    rw [statEntry_degraded fs herr]
  refine ⟨_, list_directory_ok env fs raw path h1 h2 h3 hd hi, hlen, hlen, hfilter,
    fun e he hne => ?_⟩
  have hmem : e ∈ (childNames fs path).map (statEntry env fs path) :=
    (hperm.mem_iff).mp he
  obtain ⟨n, hn, rfl⟩ := List.mem_map.mp hmem
  have hnc0 : n ≠ c0 := by
    intro hh
    exact hne (by rw [statEntry_name, hh])
  rw [statEntry_normal (hok n hn hnc0)]

def envC5 : Env :=
  { noFaultEnv (fun s => if s = "/d" then some ["d"] else none) with
    statErr := fun p => p == ["d", "x"] }

def fsC5 : Fs :=
  [(["d"], FsNode.dir), (["d", "x"], FsNode.file [65]), (["d", "y"], FsNode.file [66])]

/-- C5 witness: a two-child directory where exactly the child `x` fails
its stat still lists both children, with `x` degraded. -/
theorem C5_per_entry_failure_degrades_witness :
    (childNames fsC5 ["d"]).Nodup ∧
    "x" ∈ childNames fsC5 ["d"] ∧
    envC5.statErr (["d"] ++ ["x"]) = true ∧
    (∃ dl, list_directory envC5 fsC5 "/d" = Except.ok dl ∧
      dl.entries.length = (childNames fsC5 ["d"]).length ∧
      dl.total_entries = (childNames fsC5 ["d"]).length ∧
      dl.entries.filter (fun e => e.name == "x") =
        [{ name := "x", type := "unknown", size := none, modified := none,
           path := renderPath (["d"] ++ ["x"]),
           error := some "Permission denied or access error" }] ∧
      (∀ e ∈ dl.entries, e.name ≠ "x" → e.error = none)) := by
  refine ⟨by decide, by decide, by rfl, ?_⟩
  exact C5_per_entry_failure_degrades envC5 fsC5 "/d" ["d"] "x"
    (by decide) (by decide) (by rfl) (by rfl) (by rfl) (by decide) (by decide) (by rfl)
    (by
      intro n hn hne
      show ((["d"] ++ [n]) == ["d", "x"]) = false
      rw [beq_eq_false_iff_ne]
      intro hh
      simp at hh
      exact hne hh)

/-- C6: the entries of a successful listing are sorted ascending by
case-insensitive name; the sort is stable, i.e. restricting the output
to the entries of any one case-insensitive key leaves them in the
original enumeration order; total_entries equals the number of entries,
and an empty directory yields an empty entry list with total 0. -/
theorem C6_sorted_stable_total (env : Env) (fs : Fs) (raw : String) (path : List String)
    (h1 : pyStripIsEmpty raw = false) (h2 : raw.data.contains '\x00' = false)
    (h3 : env.resolve raw = some path)
    (hd : lookupNode fs path = some FsNode.dir)
    (hi : env.iterErr path = none) :
    ∃ dl, list_directory env fs raw = Except.ok dl ∧
      List.Sorted entryLE dl.entries ∧
      (∀ k : List Nat, dl.entries.filter (fun e => lowerKey e == k) =
        ((childNames fs path).map (statEntry env fs path)).filter
          (fun e => lowerKey e == k)) ∧
      dl.total_entries = dl.entries.length ∧
      (childNames fs path = [] → dl.entries = [] ∧ dl.total_entries = 0) := by
  refine ⟨_, list_directory_ok env fs raw path h1 h2 h3 hd hi, ?_, ?_, rfl, fun hnil => ?_⟩
  · exact List.sorted_insertionSort entryLE _
  · intro k
    exact filter_sortEntries k _
  · constructor
    · show listEntries env fs path = []
      unfold listEntries
      rw [hnil]
      rfl
    · show (listEntries env fs path).length = 0
      unfold listEntries
      rw [hnil]
      rfl

def envC6 : Env := noFaultEnv (fun s => if s = "/d" then some ["d"] else none)

def fsC6 : Fs :=
  [(["d"], FsNode.dir), (["d", "B"], FsNode.file [65]), (["d", "a"], FsNode.dir),
   (["d", "A"], FsNode.file [66])]

/-- C6 witness: a directory with children enumerated as B, a, A; the
listing is sorted case-insensitively with the tie between a and A kept
in enumeration order, and the totals match. -/
theorem C6_sorted_stable_total_witness :
    lookupNode fsC6 ["d"] = some FsNode.dir ∧
    (∃ dl, list_directory envC6 fsC6 "/d" = Except.ok dl ∧
      List.Sorted entryLE dl.entries ∧
      (∀ k : List Nat, dl.entries.filter (fun e => lowerKey e == k) =
        ((childNames fsC6 ["d"]).map (statEntry envC6 fsC6 ["d"])).filter
          (fun e => lowerKey e == k)) ∧
      dl.total_entries = dl.entries.length ∧
      (childNames fsC6 ["d"] = [] → dl.entries = [] ∧ dl.total_entries = 0)) ∧
    (listEntries envC6 fsC6 ["d"]).map (fun e => e.name) = ["a", "A", "B"] := by
  refine ⟨by rfl, ?_, by rfl⟩
  exact C6_sorted_stable_total envC6 fsC6 "/d" ["d"]
    (by decide) (by decide) (by rfl) (by rfl) (by rfl)

/-- C7 (as amended): in every successful listing, an entry's size is
non-null iff its child was stat'd successfully and is a regular file.
For a stat-successful child that is neither a regular file nor a
directory (socket, FIFO), the code reports type "file" with a null size,
so size presence tracks regular-file-ness, not the reported type
string. -/
theorem C7_size_iff_regular_file (env : Env) (fs : Fs) (raw : String) (path : List String)
    (h1 : pyStripIsEmpty raw = false) (h2 : raw.data.contains '\x00' = false)
    (h3 : env.resolve raw = some path)
    (hd : lookupNode fs path = some FsNode.dir)
    (hi : env.iterErr path = none) :
    ∃ dl, list_directory env fs raw = Except.ok dl ∧
      ∀ e ∈ dl.entries,
        (e.size.isSome = true ↔
          (env.statErr (path ++ [e.name]) = false ∧ isFile fs (path ++ [e.name]) = true)) := by
  refine ⟨_, list_directory_ok env fs raw path h1 h2 h3 hd hi, fun e he => ?_⟩
  have hmem : e ∈ (childNames fs path).map (statEntry env fs path) :=
    ((perm_listEntries env fs path).mem_iff).mp he
  obtain ⟨n, hn, rfl⟩ := List.mem_map.mp hmem
  rw [statEntry_name]
  cases henv : env.statErr (path ++ [n]) with
  | true =>
    rw [statEntry_degraded fs henv]
    simp [henv]
  | false =>
    cases hln : lookupNode fs (path ++ [n]) with
    | none =>
      rw [statEntry_normal henv]
      simp only [hln]
      simp [isFile, hln]
    | some x =>
      cases x with
      | file content =>
        rw [statEntry_normal henv]
        simp only [hln]
        simp [isFile, hln]
      | dir =>
        rw [statEntry_normal henv]
        simp only [hln]
        simp [isFile, hln]
      | other =>
        rw [statEntry_normal henv]
        simp only [hln]
        simp [isFile, hln]

def envC7 : Env := noFaultEnv (fun s => if s = "/d" then some ["d"] else none)

def fsC7 : Fs := [(["d"], FsNode.dir), (["d", "s"], FsNode.other)]

/-- The entry `list_directory` produces for the socket child of `fsC7`. -/
def entryC7 : DirectoryEntry :=
  { name := "s", type := "file", size := none, modified := some 0, path := "/d/s",
    error := none }

/-- C7 counterexample: a directory whose only child is a socket: the
listing reports that child with type "file" and size null, so "size is
non-null iff type is file" is false on the code for stat-successful
non-regular non-directory children. -/
theorem C7_counterexample :
    lookupNode fsC7 ["d", "s"] = some FsNode.other ∧
    list_directory envC7 fsC7 "/d" =
      Except.ok { directory := "/d", entries := [entryC7], total_entries := 1 } ∧
    entryC7.type = "file" ∧ entryC7.size = none :=
  ⟨rfl, rfl, rfl, rfl⟩

/-- C7 witness: the amended invariant on the socket directory: the
socket entry has a null size because the child is not a regular file,
even though its reported type is "file". -/
theorem C7_size_iff_regular_file_witness :
    lookupNode fsC7 ["d"] = some FsNode.dir ∧
    (∃ dl, list_directory envC7 fsC7 "/d" = Except.ok dl ∧
      ∀ e ∈ dl.entries,
        (e.size.isSome = true ↔
          (envC7.statErr (["d"] ++ [e.name]) = false ∧
           isFile fsC7 (["d"] ++ [e.name]) = true))) :=
  ⟨rfl, C7_size_iff_regular_file envC7 fsC7 "/d" ["d"]
    (by decide) (by decide) (by rfl) (by rfl) (by rfl)⟩

end MCPFS
